import Mathlib

/-!
Verification development for the TradeMaster message pipeline.

The Python sources are shallowly embedded: strings become `List Char`,
dictionaries become association lists, floats become `ℚ` (the decimal
literals appearing in the code are exact), network calls and calls into
the `random` module become explicit function/value parameters, and Python
exceptions become `Except` values.  The small backtracking regular
expression engine below mirrors the semantics of the `re` patterns that
the code uses (ordered alternation, greedy optional/plus with
backtracking, leftmost search).
-/

/-- Python strings are modelled as lists of characters. -/
abbrev Str := List Char

/-- The apostrophe character (kept out of string literals). -/
def apos : Char := Char.ofNat 39

/-- Python `\s` (ASCII whitespace as used by the messages at hand). -/
def isSpaceCh (c : Char) : Bool :=
  c = ' ' || c = Char.ofNat 9 || c = Char.ofNat 10 || c = Char.ofNat 13 ||
  c = Char.ofNat 11 || c = Char.ofNat 12

/-- Python `\d`. -/
def isDigitCh (c : Char) : Bool := '0' ≤ c && c ≤ '9'

/-- The character class `[a-zA-Z0-9]` used by the capture groups. -/
def isAlnumCh (c : Char) : Bool :=
  ('a' ≤ c && c ≤ 'z') || ('A' ≤ c && c ≤ 'Z') || ('0' ≤ c && c ≤ '9')

/-- Python `\w` (ASCII). -/
def isWordCh (c : Char) : Bool := isAlnumCh c || c = '_'

/-- `str.lower()` on the ASCII text handled here. -/
def toLowerStr (s : Str) : Str := s.map Char.toLower

/-- `str.upper()` on the ASCII text handled here. -/
def toUpperStr (s : Str) : Str := s.map Char.toUpper

/-- Index of the first occurrence of `needle` in `hay` (Python `str.index`). -/
def firstIdxOfSub (hay needle : Str) : Option Nat :=
  if needle.isPrefixOf hay then some 0
  else
    match hay with
    | [] => none
    | _ :: t => (firstIdxOfSub t needle).map (· + 1)

/-- Python `needle in hay` on strings. -/
def containsSub (hay needle : Str) : Bool := (firstIdxOfSub hay needle).isSome

/-- Python `str.strip()`. -/
def stripStr (s : Str) : Str :=
  ((s.dropWhile isSpaceCh).reverse.dropWhile isSpaceCh).reverse

theorem dropWhile_length_le (p : Char → Bool) (l : Str) :
    (l.dropWhile p).length ≤ l.length := by
  induction l with
  | nil => simp [List.dropWhile]
  | cons c t ih =>
    simp only [List.dropWhile]
    split
    · exact Nat.le_succ_of_le ih
    · simp

/-- Python `str.split()` with no argument: split on whitespace runs, no empties. -/
def splitWsP : Str → List Str
  | [] => []
  | c :: t =>
    if _h : isSpaceCh c then splitWsP t
    else
      ((c :: t).takeWhile (fun x => !isSpaceCh x)) ::
        splitWsP (t.dropWhile (fun x => !isSpaceCh x))
termination_by s => s.length
decreasing_by
  · simp only [List.length_cons]; omega
  · have := dropWhile_length_le (fun x => !isSpaceCh x) t
    simp only [List.length_cons]; omega

/-- `re.findall(r'\b\w+\b', s)`: the maximal runs of word characters. -/
def findallWords : Str → List Str
  | [] => []
  | c :: t =>
    if _h : isWordCh c then
      ((c :: t).takeWhile isWordCh) :: findallWords (t.dropWhile isWordCh)
    else findallWords t
termination_by s => s.length
decreasing_by
  · have := dropWhile_length_le isWordCh t
    simp only [List.length_cons]; omega
  · simp only [List.length_cons]; omega

/-! ### A small backtracking regular-expression engine

Ordered alternation (`RE.alt` tries the left branch first), greedy
`?` and `+` with backtracking, one level of capture groups indexed by
number — exactly the features used by the patterns in the repository. -/

inductive RE where
  | lit (cs : Str)
  | cls (p : Char → Bool)
  | cat (a b : RE)
  | alt (a b : RE)
  | opt (a : RE)
  | plus (p : Char → Bool)
  | group (i : Nat) (a : RE)

/-- Recorded capture groups (group index, captured text). -/
abbrev Caps := List (Nat × Str)

/-- All remainders after consuming a nonzero number of `p`-characters,
longest consumption first (greedy order). -/
def plusRems (p : Char → Bool) : Str → List Str
  | [] => []
  | c :: rest => if p c then plusRems p rest ++ [rest] else []

/-- Backtracking matcher in continuation style.  The continuation receives
the remaining input and the captures along the current path; the first
success in backtracking order wins, as in Python `re`. -/
def mrun (r : RE) (s : Str) (caps : Caps) (k : Str → Caps → Option Caps) : Option Caps :=
  match r with
  | .lit cs => if cs.isPrefixOf s then k (s.drop cs.length) caps else none
  | .cls p =>
    match s with
    | [] => none
    | c :: rest => if p c then k rest caps else none
  | .cat a b => mrun a s caps (fun s2 c2 => mrun b s2 c2 k)
  | .alt a b =>
    match mrun a s caps k with
    | some res => some res
    | none => mrun b s caps k
  | .opt a =>
    match mrun a s caps k with
    | some res => some res
    | none => k s caps
  | .plus p => (plusRems p s).findSome? (fun s2 => k s2 caps)
  | .group i a => mrun a s caps (fun s2 c2 => k s2 ((i, s.take (s.length - s2.length)) :: c2))

/-- `re.search`: try the pattern at each start position, leftmost first. -/
def reSearch (r : RE) (s : Str) : Option Caps :=
  match mrun r s [] (fun _ caps => some caps) with
  | some caps => some caps
  | none =>
    match s with
    | [] => none
    | _ :: t => reSearch r t

/-- `re.match` of a pattern anchored on both sides (`^...$`). -/
def reMatchEnd (r : RE) (s : Str) : Option Caps :=
  mrun r s [] (fun s2 caps => if s2 = [] then some caps else none)

/-- Captured text of a group. -/
def capGet (caps : Caps) (i : Nat) : Option Str :=
  (caps.find? (fun kv => kv.1 == i)).map (·.2)

def reStr (s : String) : RE := .lit s.toList

def cats : List RE → RE
  | [] => .lit []
  | [r] => r
  | r :: rest => .cat r (cats rest)

def reAlts : List RE → RE
  | [] => .lit []
  | [r] => r
  | r :: rest => .alt r (reAlts rest)

/-- Case-insensitive literal (for `re.IGNORECASE`). -/
def litCI (s : String) : RE :=
  cats (s.toList.map (fun c => RE.cls (fun x => x == c.toLower || x == c.toUpper)))

/-! ### Tool Intent Matcher (`LLMEngine._detect_tool_usage`, src/core/llm.py) -/

/-- Values stored in the Python parameter dictionaries. -/
inductive PVal where
  | s (v : String)
  | n (v : Nat)
deriving DecidableEq

/-- A Python dict with string keys, in insertion order. -/
abbrev TDict := List (String × PVal)

/-- The sub-pattern `what'?s` (an apostrophe kept out of the literal). -/
def whatAposS : RE := .cat (reStr "what") (.cat (.opt (.lit [apos])) (reStr "s"))

/-- The literal `what's`. -/
def whatsLit : RE := .lit ("what".toList ++ apos :: "s".toList)

/-- The literal `what're`. -/
def whatreLit : RE := .lit ("what".toList ++ apos :: "re".toList)

def sp : RE := reStr " "

/-- The seven `price_patterns` of `_detect_tool_usage`, in source order. -/
def price_patterns : List RE :=
  [ cats [reAlts [whatAposS, reStr "what is", reStr "tell me", reStr "show", reStr "get"], sp,
      .opt (reStr "the "),
      .opt (reAlts [reStr "current ", reStr "latest ", reStr "present ", reStr "real-time ",
        reStr "live "]),
      reAlts [reStr "price", reStr "value", reStr "worth", reStr "rate"], sp,
      .opt (reAlts [reStr "of ", reStr "for "]), .group 1 (.plus isAlnumCh)],
    cats [reStr "how much ", reAlts [reStr "is", reStr "does"], sp, .group 1 (.plus isAlnumCh),
      sp, reAlts [reStr "cost", reStr "worth", reStr "trading for", reStr "trading at",
        reStr "going for"]],
    cats [.group 1 (.plus isAlnumCh), reStr " price"],
    cats [reStr "price ", reAlts [reStr "of", reStr "for"], sp, .group 1 (.plus isAlnumCh)],
    cats [.group 1 (.plus isAlnumCh), sp,
      reAlts [reStr "is trading at", reStr "costs", reStr "is worth"]],
    cats [reAlts [reStr "check", reStr "lookup", reStr "find", reStr "get"], sp,
      .group 1 (.plus isAlnumCh), sp, reAlts [reStr "price", reStr "value", reStr "rate"]],
    cats [reAlts [reStr "what is", whatsLit], sp, .group 1 (.plus isAlnumCh), sp,
      reAlts [reStr "doing", reStr "at", reStr "trading at"]] ]

def marketGroup : RE :=
  .group 1 (reAlts [reStr "crypto", reStr "stock", reStr "cryptocurrency", reStr "stocks"])

def trendHead : RE := reAlts [whatAposS, reStr "what is", reStr "tell me", reStr "show", reStr "get"]

def trendHead2 : RE :=
  reAlts [reStr "what are", whatreLit, reStr "which are", reStr "list", reStr "show me"]

def trendTimeOpt : RE := .opt (reAlts [reStr " today", reStr " right now", reStr " currently"])

def trendInOnOpt : RE := .opt (reAlts [reStr " in", reStr " on"])

/-- The six `trend_patterns` of `_detect_tool_usage`, in source order. -/
def trend_patterns : List RE :=
  [ cats [trendHead, sp, .opt (reStr "the "),
      reAlts [reStr "top", reStr "best", reStr "leading", reStr "biggest"], sp,
      reAlts [reStr "gainers", reStr "performers", reStr "movers"], sp,
      reAlts [reStr "in", reStr "on"], sp, .opt (reStr "the "), marketGroup],
    cats [trendHead, sp, .opt (reStr "the "),
      reAlts [reStr "top", reStr "worst", reStr "biggest"], sp,
      reAlts [reStr "losers", reStr "declining", reStr "falling"], sp,
      reAlts [reStr "in", reStr "on"], sp, .opt (reStr "the "), marketGroup],
    cats [trendHead, sp, .opt (reStr "the "),
      reAlts [reStr "trending", reStr "hot", reStr "popular"], sp,
      reAlts [reStr "in", reStr "on"], sp, .opt (reStr "the "), marketGroup],
    cats [trendHead2, sp, .opt (reStr "the "),
      reAlts [reStr "top", reStr "best", reStr "leading", reStr "biggest"], sp,
      reAlts [reStr "gainers", reStr "performers", reStr "movers"], trendTimeOpt, trendInOnOpt,
      sp, .opt (reStr "the "), .opt marketGroup],
    cats [trendHead2, sp, .opt (reStr "the "),
      reAlts [reStr "top", reStr "worst", reStr "biggest"], sp,
      reAlts [reStr "losers", reStr "declining", reStr "falling"], trendTimeOpt, trendInOnOpt,
      sp, .opt (reStr "the "), .opt marketGroup],
    cats [trendHead2, sp, .opt (reStr "the "),
      reAlts [reStr "trending", reStr "hot", reStr "popular"], trendTimeOpt, trendInOnOpt,
      sp, .opt (reStr "the "), .opt marketGroup] ]

/-- `LLMEngine._detect_tool_usage`: try the price patterns in order, then the
trend patterns; `none` corresponds to the Python `(False, None)`. -/
def detect_tool_usage (message : Str) : Option (String × TDict) :=
  let lower := toLowerStr message
  match price_patterns.findSome? (fun p => reSearch p lower) with
  | some caps =>
    let symbol := toUpperStr ((capGet caps 1).getD [])
    some ("price_checker", [("symbol", .s symbol.asString)])
  | none =>
    match trend_patterns.findSome? (fun p => reSearch p lower) with
    | some caps =>
      let marketTypeRaw : Str :=
        match capGet caps 1 with
        | some g => toLowerStr g
        | none => "crypto".toList
      let marketType : String :=
        if marketTypeRaw = "cryptocurrency".toList || marketTypeRaw = "crypto".toList then
          "crypto"
        else if marketTypeRaw = "stocks".toList || marketTypeRaw = "stock".toList then "stock"
        else marketTypeRaw.asString
      let category : String :=
        if containsSub lower "gainers".toList || containsSub lower "performers".toList then
          "gainers"
        else if containsSub lower "losers".toList || containsSub lower "declining".toList ||
            containsSub lower "falling".toList then "losers"
        else "trending"
      some ("market_trends",
        [("market_type", .s marketType), ("category", .s category), ("limit", .n 5)])
    | none => none

/-! ### Tool registry, loader, and executor
(src/tools/registry.py, src/tools/loader.py, `LLMEngine._execute_tool`) -/

/-- String rendering of a parameter value (Python `str(v)`). -/
def pvalStr : PVal → String
  | .s v => v
  | .n v => toString v

/-- A tool: its `name` property and its `execute` coroutine, whose outcome is
either a result dict or a raised exception text (a parameter of the model,
since the real tools do network I/O). -/
structure Tool where
  name : String
  exec : TDict → Except String TDict

/-- `ToolRegistry._tools`: a dict from names to tools, in insertion order. -/
abbrev ToolReg := List (String × Tool)

/-- `ToolRegistry.get_tool`. -/
def get_tool (reg : ToolReg) (name : String) : Option Tool :=
  (reg.find? (fun kv => kv.1 == name)).map (·.2)

/-- `ToolRegistry.register_tool`: duplicate names raise `ValueError`. -/
def register_tool (reg : ToolReg) (t : Tool) : Except String ToolReg :=
  if (get_tool reg t.name).isSome then
    .error ("A tool with the name " ++ [apos].asString ++ t.name ++ [apos].asString ++
      " is already registered")
  else .ok (reg ++ [(t.name, t)])

/-- `load_tools` (src/tools/loader.py): clear the registry, then register the
price checker and the market trends tool.  The two `exec` behaviours are
parameters; the registered names come from the tools' `name` properties
(`"price_checker"` in price_checker.py, `"market_trends"` in market_trends.py;
browser_search.py's `"browser_search"` is never registered). -/
def load_tools (pc mt : TDict → Except String TDict) : Except String ToolReg := do
  let reg : ToolReg := []
  let reg ← register_tool reg ⟨"price_checker", pc⟩
  let reg ← register_tool reg ⟨"market_trends", mt⟩
  pure reg

/-- `"error" in result`. -/
def hasErrorKey (d : TDict) : Bool := d.any (fun kv => kv.1 == "error")

/-- `d.get(k, default)` restricted to string values, as the code uses it. -/
def dictGetS (d : TDict) (k : String) (default : String) : String :=
  match (d.find? (fun kv => kv.1 == k)).map (·.2) with
  | some (PVal.s v) => v
  | some (PVal.n v) => toString v
  | none => default

/-- `d.get(k, default)` for the numeric `limit` parameter. -/
def dictGetN (d : TDict) (k : String) (default : Nat) : Nat :=
  match (d.find? (fun kv => kv.1 == k)).map (·.2) with
  | some (PVal.n v) => v
  | _ => default

/-- Python `d[k] = v`: overwrite in place if present, else append. -/
def dictSet (d : TDict) (k : String) (v : PVal) : TDict :=
  if d.any (fun kv => kv.1 == k) then
    d.map (fun kv => if kv.1 == k then (k, v) else kv)
  else d ++ [(k, v)]

/-- `LLMEngine._construct_fallback_query`. -/
def construct_fallback_query (tool_name : String) (params : TDict) : String :=
  if tool_name = "price_checker" then
    let symbol := (toUpperStr (dictGetS params "symbol" "").toList).asString
    let market_type := dictGetS params "market_type" "auto"
    if market_type = "auto" then
      "What is the current price of " ++ symbol ++ " cryptocurrency or stock"
    else if market_type = "crypto" then
      "What is the current price of " ++ symbol ++ " cryptocurrency"
    else
      "What is the current price of " ++ symbol ++ " stock"
  else if tool_name = "market_trends" then
    let market_type := dictGetS params "market_type" "crypto"
    let category := dictGetS params "category" "trending"
    let limit := dictGetN params "limit" 5
    if category = "gainers" then
      "What are the top " ++ toString limit ++ " gaining " ++ market_type ++ "s today"
    else if category = "losers" then
      "What are the top " ++ toString limit ++ " losing " ++ market_type ++ "s today"
    else
      "What are the trending " ++ market_type ++ "s today"
  else
    "Latest information about " ++ String.intercalate " " (params.map (fun kv => pvalStr kv.2))

/-- The parameter dict of the browser-search fallback invocation. -/
def fallbackQueryParams (tool_name : String) (params : TDict) : TDict :=
  [("query", .s (construct_fallback_query tool_name params)),
   ("search_type", .s (if tool_name = "price_checker" then "price" else "trends"))]

/-- The provenance note added when the fallback supplies the data. -/
def fallbackNoteText (tool_name : String) : String :=
  "This data was obtained via web search fallback because the " ++ tool_name ++ " API failed"

/-- The provenance note for the exception path. -/
def fallbackNoteExnText (tool_name : String) : String :=
  "This data was obtained via web search fallback because the " ++ tool_name ++
    " API failed with an exception"

/-- The `Tool 'name' not found` error dict. -/
def toolNotFound (tool_name : String) : TDict :=
  [("error", .s ("Tool " ++ [apos].asString ++ tool_name ++ [apos].asString ++ " not found"))]

/-- Outcome of `_execute_tool`, instrumented with the list of tools whose
`execute` was actually invoked and with whether a fallback-success branch
supplied the returned data. -/
structure ExecResult where
  result : TDict
  invoked : List String
  usedFallback : Bool
deriving DecidableEq

/-- Ranking used to justify the recursion in `_execute_tool`: the recursive
call always targets `browser_search`, which is not a market-data tool. -/
def toolRank (tool_name : String) : Nat :=
  if tool_name = "price_checker" ∨ tool_name = "market_trends" then 1 else 0

/-- `LLMEngine._execute_tool` (src/core/llm.py, lines 194-267). -/
def execute_tool (reg : ToolReg) (tool_name : String) (params : TDict) : ExecResult :=
  match get_tool reg tool_name with
  | none => ⟨toolNotFound tool_name, [], false⟩
  | some tool =>
    match tool.exec params with
    | .ok result =>
      if h : (tool_name = "price_checker" ∨ tool_name = "market_trends") ∧
          (hasErrorKey result || result = []) then
        let browser_result :=
          execute_tool reg "browser_search" (fallbackQueryParams tool_name params)
        if !hasErrorKey browser_result.result then
          ⟨dictSet browser_result.result "note" (.s (fallbackNoteText tool_name)),
            tool_name :: browser_result.invoked, true⟩
        else
          ⟨result, tool_name :: browser_result.invoked, browser_result.usedFallback⟩
      else ⟨result, [tool_name], false⟩
    | .error e =>
      if h : tool_name = "price_checker" ∨ tool_name = "market_trends" then
        let browser_result :=
          execute_tool reg "browser_search" (fallbackQueryParams tool_name params)
        if !hasErrorKey browser_result.result then
          ⟨dictSet browser_result.result "note" (.s (fallbackNoteExnText tool_name)),
            tool_name :: browser_result.invoked, true⟩
        else
          ⟨[("error", .s ("Error executing tool: " ++ e))],
            tool_name :: browser_result.invoked, browser_result.usedFallback⟩
      else ⟨[("error", .s ("Error executing tool: " ++ e))], [tool_name], false⟩
termination_by toolRank tool_name
decreasing_by
  · simp only [toolRank]
    rw [if_pos h.1, if_neg (by simp)]
    omega
  · simp only [toolRank]
    rw [if_pos h, if_neg (by simp)]
    omega

/-! ### Response Composer (`LLMEngine.generate_response`, src/core/llm.py) -/

/-- The apostrophe as a one-character string. -/
def aposS : String := [apos].asString

/-- `LLMEngine._init_fallback_responses`: the fixed pool of apologetic
fallback sentences. -/
def fallback_responses : List String :=
  [ "I" ++ aposS ++ "m having trouble connecting to my knowledge base right now. As a " ++
      "trading assistant, I can tell you that successful trading typically involves a " ++
      "combination of technical analysis, fundamental research, and disciplined risk " ++
      "management. Could you try your question again in a moment?",
    "It seems I" ++ aposS ++ "m experiencing a temporary issue accessing my full " ++
      "capabilities. In general, when analyzing markets, it" ++ aposS ++ "s important to " ++
      "consider multiple timeframes and confirm signals across different indicators. I " ++
      "should be back to normal shortly.",
    "I apologize for the inconvenience, but I" ++ aposS ++ "m currently unable to process " ++
      "your request fully. Remember that proper position sizing and risk management are " ++
      "foundational to any successful trading strategy. Please try again soon." ]

/-- One entry of a conversation history (entries with both a role and a
content key; others are filtered out before the API call). -/
structure HistMsg where
  role : String
  content : String
deriving DecidableEq

/-- The per-user context dict as consumed by the pipeline: the three keys the
code reads, each possibly absent. -/
structure UserCtx where
  channelId : Option String
  lastInteractionTime : Option PVal
  messageHistory : Option (List HistMsg)

/-- A one-line rendering standing in for `json.dumps(tool_result, indent=2)`
(the text is only ever embedded into the prompt given to the remote
generation endpoint, which this model treats as an opaque function). -/
def jsonDumpSimple (d : TDict) : String :=
  "\x7b" ++ String.intercalate ", "
    (d.map (fun kv => "\x22" ++ kv.1 ++ "\x22: " ++ pvalStr kv.2)) ++ "\x7d"

/-- The prompt block built when the tool reported an error. -/
def mkErrorPrompt (tool_name : String) (err : String) : String :=
  "\nIMPORTANT: I tried to get real-time data using the " ++ tool_name ++
    " tool, but encountered an error: " ++ err ++
    "\n\nWhen responding to the user:\n" ++
    "1. DO NOT provide any specific price or market data numbers since I don" ++ aposS ++
    "t have current data\n" ++
    "2. Explain that you" ++ aposS ++
    "re unable to provide real-time data at the moment due to a technical issue\n" ++
    "3. Apologize for the inconvenience\n" ++
    "4. Suggest that they check a reliable financial website or exchange for current data\n" ++
    "5. DO NOT make up or estimate current prices based on your training data\n"

/-- The prompt block built when the tool returned data. -/
def mkDataPrompt (tool_name : String) (dump : String) : String :=
  "\nHere is the real-time data from the " ++ tool_name ++ " tool:\n" ++ dump ++
    "\n\nPlease use this real-time data in your response.\n"

/-- `LLMEngine.generate_response` (src/core/llm.py, lines 306-368).

The Groq call is a parameter `groqCall message history toolPrompt`; `seed`
stands for the state of `random.choice`.  The Python function returns a
string from inside the `if self.groq_api_key:` block; when the key is
absent, control falls off the end of the function and Python returns
`None`, modelled as `Option.none`. -/
def generate_response (groq_api_key : Option String) (reg : ToolReg)
    (groqCall : Str → List HistMsg → String → Except String String) (seed : Nat)
    (message : Str) (user_id : String) (context : Option UserCtx) : Option String :=
  let detected := detect_tool_usage message
  let tool_result : Option ExecResult :=
    match detected with
    | some tp => some (execute_tool reg tp.1 tp.2)
    | none => none
  let conversation_history : List HistMsg :=
    match context with
    | some c => (c.messageHistory).getD []
    | none => []
  if groq_api_key.isSome then
    let tool_prompt : String :=
      match detected, tool_result with
      | some tp, some tr =>
        if tr.result ≠ [] then
          if hasErrorKey tr.result then
            mkErrorPrompt tp.1 (dictGetS tr.result "error" "")
          else mkDataPrompt tp.1 (jsonDumpSimple tr.result)
        else ""
      | _, _ => ""
    match groqCall message conversation_history tool_prompt with
    | .ok response => some response
    | .error _ => some (fallback_responses.getD (seed % 3) "")
  else
    none

/-! ### Gatekeeper (src/core/gatekeeper.py) -/

/-- `MessageVerdict`: the verdict on whether a message needs a response. -/
structure MessageVerdict where
  should_respond : Bool
  confidence : ℚ
  reason : String
deriving DecidableEq

/-- The Python exceptions that `datetime.fromisoformat` can raise and that
`_fallback_evaluation` catches. -/
inductive PyErr where
  | valueError
  | typeError
deriving DecidableEq

/-- `Gatekeeper.trading_keywords` (src/core/gatekeeper.py, `_init_keywords`). -/
def trading_keywords : List String :=
  ["stock", "trade", "trades", "trading", "invest", "investing", "investor", "portfolio",
   "market", "buy", "sell", "long", "short", "position", "entry", "exit",
   "analysis", "chart", "pattern", "breakout", "support", "resistance",
   "bullish", "bearish", "trend", "uptrend", "downtrend", "backtest",
   "strategy", "risk", "reward", "profit", "loss", "gain", "roi", "return",
   "crypto", "bitcoin", "btc", "ethereum", "eth", "altcoin", "token", "coin",
   "blockchain", "wallet", "address", "exchange", "dex", "defi", "nft",
   "mining", "staking", "yield", "dao", "smart contract", "gas", "gwei",
   "hodl", "fud", "fomo", "whale", "dump", "pump", "moon", "lambo",
   "price", "prediction", "forecast", "outlook", "recommendation",
   "best", "worst", "today", "tomorrow", "etf", "fund", "mutual"]

/-- `Gatekeeper.key_phrases`. -/
def key_phrases : List String :=
  ["best trades", "trading advice", "should i buy", "should i sell",
   "what stocks", "which crypto", "price prediction", "market analysis",
   "investment advice", "portfolio advice", "trading strategy"]

/-- `Gatekeeper.direct_address`. -/
def direct_address : List String :=
  ["trademaster", "bot", "assistant", "help", "hey", "hello", "hi", "ai"]

/-- The wh-words checked for the question heuristic. -/
def q_words : List String := ["what", "how", "when", "why", "where", "who", "which"]

/-- The `last_interaction_time` block of `_fallback_evaluation`:
`datetime.fromisoformat` (the `parseIso` parameter, yielding a timestamp in
seconds or raising) inside `try ... except (ValueError, TypeError): pass`. -/
def recentInteractionE (parseIso : PVal → Except PyErr Int) (now : Int)
    (context : UserCtx) : Except PyErr Bool :=
  match context.lastInteractionTime with
  | some v =>
    match parseIso v with
    | .ok last_time => .ok (decide ((now - last_time) < 300))
    | .error _ => .ok false
  | none => .ok false

/-- `Gatekeeper._fallback_evaluation` (src/core/gatekeeper.py, lines 209-299):
the keyword/heuristic classifier.  Timestamps are modelled in whole seconds;
`now` stands for `datetime.now()`. -/
def fallback_evaluation (parseIso : PVal → Except PyErr Int) (now : Int)
    (message : Str) (context : UserCtx) (bot_mentioned : Bool) :
    Except PyErr MessageVerdict :=
  if bot_mentioned then
    .ok ⟨true, 0.95, "Fallback: Bot was directly mentioned"⟩
  else
    let message_lower := toLowerStr message
    let words := findallWords message_lower
    let direct_address_match := words.any (fun w => direct_address.any (fun d => d.toList == w))
    let trading_match := words.any (fun w => trading_keywords.any (fun d => d.toList == w))
    let phraseFound := key_phrases.find? (fun p => containsSub message_lower p.toList)
    let phrase_match := phraseFound.isSome
    let matched_phrase := phraseFound.getD ""
    let is_question := containsSub message "?".toList ||
      (splitWsP message_lower).any (fun w => q_words.any (fun q => q.toList == w))
    let best_trades_match := containsSub message_lower "best trade".toList ||
      containsSub message_lower "best stock".toList ||
      containsSub message_lower "best crypto".toList
    Except.bind (recentInteractionE parseIso now context) (fun recent_interaction =>
      let should := bot_mentioned || direct_address_match || phrase_match ||
        best_trades_match || (trading_match && (is_question || recent_interaction))
      if should then
        let confidence : ℚ :=
          if phrase_match || best_trades_match then 0.9
          else if trading_match || direct_address_match then 0.8
          else 0.6
        let reasons : List String :=
          (if direct_address_match then ["directly addressed the bot"] else []) ++
          (if trading_match then ["contains trading terminology"] else []) ++
          (if phrase_match then
            ["contains key trading phrase " ++ aposS ++ matched_phrase ++ aposS] else []) ++
          (if best_trades_match then ["asking about best trades/investments"] else []) ++
          (if is_question then ["asks a question"] else []) ++
          (if recent_interaction then ["continues recent conversation"] else [])
        .ok ⟨should, confidence, "Fallback: " ++ String.intercalate ", " reasons⟩
      else
        .ok ⟨should, 0.7,
          "Fallback: Message does not appear to be trading related or directed at the bot"⟩)

/-- The verdict computed by the classifier (its `Except` wrapper is always
`ok`; see `fallback_evaluation_ok`). -/
def fallbackVerdict (parseIso : PVal → Except PyErr Int) (now : Int)
    (message : Str) (context : UserCtx) (bot_mentioned : Bool) : MessageVerdict :=
  match fallback_evaluation parseIso now message context bot_mentioned with
  | .ok v => v
  | .error _ => ⟨false, 0, ""⟩

/-- The classifier never raises: its embedding always returns `ok`. -/
theorem fallback_evaluation_ok (parseIso : PVal → Except PyErr Int) (now : Int)
    (message : Str) (context : UserCtx) (bot_mentioned : Bool) :
    fallback_evaluation parseIso now message context bot_mentioned =
      .ok (fallbackVerdict parseIso now message context bot_mentioned) := by
  unfold fallbackVerdict fallback_evaluation recentInteractionE
  rcases context.lastInteractionTime with _ | v
  · simp only []
    split <;> simp [Except.bind] <;> split <;> simp
  · simp only []
    split
    · simp
    · rcases parseIso v with e | t <;> simp [Except.bind] <;> split <;> simp

/-- Digits to a natural number. -/
def natOfDigits (s : Str) : Nat := s.foldl (fun acc c => 10 * acc + (c.toNat - 48)) 0

/-- `float()` applied to a `\d+\.\d+` literal, as an exact rational. -/
def parseFloatQ (s : Str) : Option ℚ :=
  let intPart := s.takeWhile isDigitCh
  let rest := s.dropWhile isDigitCh
  match rest with
  | '.' :: frac =>
    if intPart ≠ [] && frac ≠ [] && frac.all isDigitCh then
      some ((natOfDigits intPart : ℚ) + (natOfDigits frac : ℚ) / (10 : ℚ) ^ frac.length)
    else none
  | _ => none

/-- The strict verdict grammar `^(YES|NO)\s+(\d+\.\d+)\s+(.+)$` with
`re.IGNORECASE`. -/
def strict_verdict_re : RE :=
  cats [.group 1 (.alt (litCI "YES") (litCI "NO")), .plus isSpaceCh,
    .group 2 (cats [.plus isDigitCh, .lit ['.'], .plus isDigitCh]), .plus isSpaceCh,
    .group 3 (.plus (fun c => !(c == Char.ofNat 10)))]

/-- The lenient confidence pattern `(\d+\.\d+)`. -/
def decimal_re : RE := .group 1 (cats [.plus isDigitCh, .lit ['.'], .plus isDigitCh])

/-- The response-parsing section of `Gatekeeper.should_respond`
(src/core/gatekeeper.py, lines 372-397): strict parse with clamping, else
the lenient recovery parse (decision by token position of YES/NO, first
decimal literal as confidence, whole text as reason). -/
def parse_ollama_reply (response : Str) : Bool × ℚ × Str :=
  let r := stripStr response
  match reMatchEnd strict_verdict_re r with
  | some caps =>
    let decision := toUpperStr ((capGet caps 1).getD []) == "YES".toList
    let confidence : ℚ :=
      match parseFloatQ ((capGet caps 2).getD []) with
      | some q => max 0 (min 1 q)
      | none => 0.5
    (decision, confidence, (capGet caps 3).getD [])
  | none =>
    let up := toUpperStr r
    let decision := containsSub up "YES".toList &&
      !(containsSub up "NO".toList &&
        decide ((firstIdxOfSub up "NO".toList).getD 0 < (firstIdxOfSub up "YES".toList).getD 0))
    let confidence : ℚ :=
      match reSearch decimal_re r with
      | some caps => (parseFloatQ ((capGet caps 1).getD [])).getD 0
      | none => 0.7
    (decision, confidence, r)

/-- `Gatekeeper.max_connection_attempts`. -/
def max_connection_attempts : Nat := 3

/-- The remote-client state: the circuit-breaker flag, the attempt counter,
and the per-channel rate-limit map (timestamps in whole seconds). -/
structure GkState where
  ollama_available : Bool
  connection_attempts : Nat
  last_response_time : List (String × Int)
deriving DecidableEq

/-- The outcome the network would deliver if the transport were invoked. -/
inductive OllamaOutcome where
  | ok (content : Str)
  | httpError
  | timeout
  | exn

/-- Result of `_call_ollama`, instrumented with whether the transport was
actually invoked. -/
structure OllamaCall where
  response : Option Str
  st : GkState
  transport : Bool

/-- `Gatekeeper._call_ollama` (src/core/gatekeeper.py, lines 160-207). -/
def call_ollama (st : GkState) (outcome : OllamaOutcome) : OllamaCall :=
  if st.ollama_available = false ∧ max_connection_attempts ≤ st.connection_attempts then
    ⟨none, st, false⟩
  else
    let st1 : GkState := {st with connection_attempts := st.connection_attempts + 1}
    match outcome with
    | .ok content =>
      ⟨some content, {st1 with ollama_available := true, connection_attempts := 0}, true⟩
    | _ => ⟨none, st1, true⟩

def lookupTime (m : List (String × Int)) (k : String) : Option Int :=
  (m.find? (fun kv => kv.1 == k)).map (·.2)

def setTime (m : List (String × Int)) (k : String) (v : Int) : List (String × Int) :=
  if m.any (fun kv => kv.1 == k) then m.map (fun kv => if kv.1 == k then (k, v) else kv)
  else m ++ [(k, v)]

/-- Result of `Gatekeeper.should_respond`, instrumented with whether any
transport I/O happened. -/
structure GkDecision where
  verdict : MessageVerdict
  st : GkState
  transport : Bool

/-- The tail of `Gatekeeper.should_respond` past the rate-limit check:
circuit-breaker short-circuit, otherwise the Ollama call and the parsing of
its reply (with rate-limit bookkeeping on a responding verdict). -/
def gkEvaluate (parseIso : PVal → Except PyErr Int) (st : GkState) (message : Str)
    (context : UserCtx) (bot_mentioned : Bool) (channel_id : String) (now : Int)
    (outcome : OllamaOutcome) : GkDecision :=
  if st.ollama_available = false ∧ max_connection_attempts ≤ st.connection_attempts then
    ⟨fallbackVerdict parseIso now message context bot_mentioned, st, false⟩
  else
    let cr := call_ollama st outcome
    match cr.response with
    | none => ⟨fallbackVerdict parseIso now message context bot_mentioned, cr.st, cr.transport⟩
    | some resp =>
      if resp = [] then
        ⟨fallbackVerdict parseIso now message context bot_mentioned, cr.st, cr.transport⟩
      else
        let parsed := parse_ollama_reply resp
        let st2 :=
          if parsed.1 then
            {cr.st with last_response_time := setTime cr.st.last_response_time channel_id now}
          else cr.st
        ⟨⟨parsed.1, parsed.2.1, parsed.2.2.asString⟩, st2, cr.transport⟩

/-- `Gatekeeper.should_respond` (src/core/gatekeeper.py, lines 301-416). -/
def gk_should_respond (parseIso : PVal → Except PyErr Int) (st : GkState) (message : Str)
    (user_id : String) (bot_mentioned : Bool) (context : Option UserCtx) (now : Int)
    (outcome : OllamaOutcome) : GkDecision :=
  let context := context.getD ⟨none, none, none⟩
  if bot_mentioned then
    ⟨⟨true, 0.98, "Bot was directly mentioned"⟩, st, false⟩
  else
    let channel_id := context.channelId.getD "unknown"
    match lookupTime st.last_response_time channel_id with
    | some t =>
      if now - t < 5 then
        ⟨⟨false, 0.9,
          "Rate limiting: responded in this channel " ++ toString (now - t) ++ " seconds ago"⟩,
          st, false⟩
      else gkEvaluate parseIso st message context bot_mentioned channel_id now outcome
    | none => gkEvaluate parseIso st message context bot_mentioned channel_id now outcome

/-! ### Discord client (src/bot/client.py): message splitting and `on_message` -/

/-- The newline character. -/
def nlCh : Char := Char.ofNat 10

/-- Python `message.split('\n\n')`: split on the two-newline separator,
left to right, non-overlapping. -/
def splitParas : Str → List Str
  | [] => [[]]
  | [c] => [[c]]
  | c :: c2 :: rest =>
    if c = nlCh ∧ c2 = nlCh then [] :: splitParas rest
    else
      match splitParas (c2 :: rest) with
      | [] => [[c]]
      | g :: gs => (c :: g) :: gs
termination_by s => s.length
decreasing_by
  · simp only [List.length_cons]; omega
  · simp only [List.length_cons]; omega

/-- The tail part of joining with the `'\n\n'` separator. -/
def joinTail : List Str → Str
  | [] => []
  | g :: gs => nlCh :: nlCh :: (g ++ joinTail gs)

/-- Joining with the `'\n\n'` separator (`'\n\n'.join`). -/
def joinParas : List Str → Str
  | [] => []
  | g :: gs => g ++ joinTail gs

/-- Python `[.!?]` membership. -/
def isSentEnd (c : Char) : Bool := c = '.' || c = '!' || c = '?'

/-- `re.split(r'(?<=[.!?])\s+', paragraph)`: split at each maximal whitespace
run immediately preceded by sentence-ending punctuation, dropping the
whitespace.  `acc` holds the reversed characters of the current piece. -/
def lastSentEnd (acc : Str) : Bool :=
  match acc with
  | p :: _ => isSentEnd p
  | [] => false

def splitSentAux (acc : Str) : Str → List Str
  | [] => [acc.reverse]
  | c :: rest =>
    if _h : lastSentEnd acc && isSpaceCh c then
      acc.reverse :: splitSentAux [] (rest.dropWhile isSpaceCh)
    else
      splitSentAux (c :: acc) rest
termination_by s => s.length
decreasing_by
  all_goals simp only [List.length_cons]
  all_goals first
    | omega
    | exact Nat.lt_succ_of_le (dropWhile_length_le _ _)

def splitSentences (paragraph : Str) : List Str := splitSentAux [] paragraph

/-- Discord's per-message character limit (`self.discord_message_limit`). -/
def discord_message_limit : Nat := 2000

/-- The sentence loop of `_split_message` (src/bot/client.py, lines 112-120). -/
def stepSent (limit : Nat) (st : List Str × Str) (sentence : Str) : List Str × Str :=
  let (parts, current_part) := st
  if limit < current_part.length + sentence.length + 1 then
    (parts ++ [current_part], sentence)
  else if current_part ≠ [] then (parts, current_part ++ ' ' :: sentence)
  else (parts, sentence)

/-- The paragraph loop of `_split_message` (src/bot/client.py, lines 99-128). -/
def stepPara (limit : Nat) (st : List Str × Str) (paragraph : Str) : List Str × Str :=
  let (parts, current_part) := st
  if limit < current_part.length + paragraph.length + 2 then
    let parts := if current_part ≠ [] then parts ++ [current_part] else parts
    if limit < paragraph.length then
      (splitSentences paragraph).foldl (stepSent limit) (parts, [])
    else (parts, paragraph)
  else
    if current_part ≠ [] then (parts, current_part ++ nlCh :: nlCh :: paragraph)
    else (parts, paragraph)

/-- `TradeMasterClient._split_message` (src/bot/client.py, lines 78-134). -/
def split_message (limit : Nat) (message : Str) : List Str :=
  if message.length ≤ limit then [message]
  else
    let paragraphs := splitParas message
    let st := paragraphs.foldl (stepPara limit) ([], [])
    if st.2 ≠ [] then st.1 ++ [st.2] else st.1

/-- The fields of a Discord message event that `on_message` inspects. -/
structure InMsg where
  content : String
  authorIsSelf : Bool
  authorIsBot : Bool
  mentionsBot : Bool

/-- Observable pipeline events of one `on_message` run, in order. -/
inductive BotEv where
  | processCommands
  | gatekeeperEvaluated (v : MessageVerdict)
  | composerInvoked (content : String)
  | replied (s : String)
  | sent (s : String)
deriving DecidableEq

/-- `content.startswith("!")` (the command prefix check). -/
def startsWithBang (s : String) : Bool :=
  match s.toList with
  | c :: _ => c = '!'
  | [] => false

/-- The error reply sent from the exception handler when the bot was
mentioned. -/
def errorReplyText : String :=
  "I encountered an error processing your request. Please try again later."

/-- `TradeMasterClient.on_message` (src/bot/client.py, lines 136-198) as an
event trace.  `genResp` is `LLMEngine.generate_response`; a `none` result
models the engine returning Python `None`, in which case `_split_message`
raises `TypeError`, which the handler catches (replying with an error text
only if the bot was mentioned).  The source forwards every surviving message
straight to the engine — the comment at line 171 reads "Direct all messages
to the LLM engine without gatekeeper filtering" — so no
`gatekeeperEvaluated` event ever occurs. -/
def on_message (genResp : String → Option String) (m : InMsg) : List BotEv :=
  if m.authorIsSelf then []
  else
    BotEv.processCommands ::
    (if startsWithBang m.content then []
     else if m.authorIsBot then []
     else
       match genResp m.content with
       | some response =>
         let message_parts := split_message discord_message_limit response.toList
         BotEv.composerInvoked m.content ::
           (match message_parts with
            | [] => if m.mentionsBot then [BotEv.replied errorReplyText] else []
            | p :: rest =>
              BotEv.replied p.asString :: rest.map (fun q => BotEv.sent q.asString))
       | none =>
         BotEv.composerInvoked m.content ::
           (if m.mentionsBot then [BotEv.replied errorReplyText] else []))

/-! ### Claim theorems -/

/-- A registry loaded by `load_tools` with demonstration tool behaviours:
the price checker reports an API error, the trends tool succeeds. -/
def regDemo : ToolReg :=
  [("price_checker", ⟨"price_checker", fun _ => .ok [("error", PVal.s "api down")]⟩),
   ("market_trends", ⟨"market_trends", fun _ => .ok [("price", PVal.n 5)]⟩)]

/-- Helper: a missing tool name yields the not-found error immediately and
invokes nothing. -/
theorem execute_tool_not_found (reg : ToolReg) (tool_name : String) (params : TDict)
    (h : get_tool reg tool_name = none) :
    execute_tool reg tool_name params = ⟨toolNotFound tool_name, [], false⟩ := by
  unfold execute_tool
  rw [h]

/-- C5: for every `tool_name` not present in the registry, `_execute_tool`
returns the `Tool '...' not found` error immediately and no tool's
`execute` — in particular no fallback tool's — is invoked. -/
theorem C5_unknown_tool_immediate_err (reg : ToolReg) (tool_name : String) (params : TDict)
    (h : get_tool reg tool_name = none) :
    (execute_tool reg tool_name params).result = toolNotFound tool_name ∧
    (execute_tool reg tool_name params).invoked = [] := by
  rw [execute_tool_not_found reg tool_name params h]
  exact ⟨rfl, rfl⟩

/-- Witness for C5 at the registry produced by `load_tools` and the spec's
`nonexistent_tool` input. -/
theorem C5_unknown_tool_immediate_err_witness :
    (execute_tool regDemo "nonexistent_tool" []).result = toolNotFound "nonexistent_tool" ∧
    (execute_tool regDemo "nonexistent_tool" []).invoked = [] :=
  C5_unknown_tool_immediate_err regDemo "nonexistent_tool" [] rfl

/-- The message `what's the price of BTC` (apostrophe spelled out). -/
def msgPriceBTC : Str := "what".toList ++ apos :: "s the price of BTC".toList

def msgTopGainers : Str := "what are the top gainers in crypto".toList

set_option maxRecDepth 100000 in
/-- C6: the Tool Intent Matcher maps `what's the price of BTC` to
`price_checker` with `symbol="BTC"`, and `what are the top gainers in
crypto` to `market_trends` with `market_type="crypto"`,
`category="gainers"` (and the fixed `limit=5`). -/
theorem C6_intent_round_trip :
    detect_tool_usage msgPriceBTC = some ("price_checker", [("symbol", PVal.s "BTC")]) ∧
    detect_tool_usage msgTopGainers = some ("market_trends",
      [("market_type", PVal.s "crypto"), ("category", PVal.s "gainers"),
       ("limit", PVal.n 5)]) := by
  exact ⟨by decide, by decide⟩

/-- C7: the keyword/heuristic classifier is total — for every message,
context (including absent or unparsable `last_interaction_time` values, any
behaviour of the timestamp parser, and the empty message) and mention flag,
its embedding returns `ok` with a verdict instead of propagating any
exception. -/
theorem C7_classifier_total (parseIso : PVal → Except PyErr Int) (now : Int)
    (message : Str) (context : UserCtx) (bot_mentioned : Bool) :
    ∃ v : MessageVerdict,
      fallback_evaluation parseIso now message context bot_mentioned = Except.ok v :=
  ⟨fallbackVerdict parseIso now message context bot_mentioned,
    fallback_evaluation_ok parseIso now message context bot_mentioned⟩

set_option maxRecDepth 100000 in
/-- C2 (code bug): with the generation key absent, `generate_response`
falls off the end of the function and returns Python `None` instead of a
fallback sentence; with the key present and the API failing, it does return
the pseudo-randomly chosen fallback sentence. -/
theorem C2_missing_key_returns_none :
    generate_response none regDemo (fun _ _ _ => .error "connection error") 0
      "hello".toList "u1" none = none ∧
    generate_response (some "key") regDemo (fun _ _ _ => .error "connection error") 0
      "hello".toList "u1" none = some (fallback_responses.getD 0 "") := by
  exact ⟨by decide, by decide⟩

/-- C3 (counterexample): starting from the healthy state (availability flag
set by a successful health check), three consecutive transport failures
leave the state at `⟨true, 3, []⟩` — and the next Gatekeeper call still
performs transport I/O, because `_call_ollama` short-circuits only when the
availability flag is also false.  This refutes the claim that three
consecutive failures alone open the circuit. -/
theorem C3_three_failures_do_not_open_circuit :
    ((call_ollama (call_ollama (call_ollama ⟨true, 0, []⟩ .timeout).st .timeout).st
        .timeout).st = (⟨true, 3, []⟩ : GkState)) ∧
    (call_ollama ⟨true, 3, []⟩ .timeout).transport = true ∧
    (gk_should_respond (fun _ => .error .valueError) ⟨true, 3, []⟩ "hi".toList "u" false
        none 0 .timeout).transport = true := by
  exact ⟨by decide, rfl, by decide⟩

/-- C3 (amended): the circuit is open only when the availability flag is
false **and** at least 3 attempts have failed; in that state `_call_ollama`
performs no transport I/O and returns `None`, `should_respond` performs no
transport I/O, leaves the state unchanged (so the circuit stays open until
a health check flips the flag), and — when the bot is not mentioned and the
channel has no recorded response time — delegates the decision to the
keyword/heuristic classifier. -/
theorem C3_circuit_requires_flag (parseIso : PVal → Except PyErr Int) (st : GkState)
    (message : Str) (user_id : String) (context : Option UserCtx) (now : Int)
    (outcome : OllamaOutcome) (hav : st.ollama_available = false)
    (hcnt : 3 ≤ st.connection_attempts) :
    (call_ollama st outcome).transport = false ∧
    (call_ollama st outcome).response = none ∧
    (call_ollama st outcome).st = st ∧
    (∀ bot_mentioned,
      (gk_should_respond parseIso st message user_id bot_mentioned context now
        outcome).transport = false ∧
      (gk_should_respond parseIso st message user_id bot_mentioned context now
        outcome).st = st) ∧
    (lookupTime st.last_response_time
        ((context.getD ⟨none, none, none⟩).channelId.getD "unknown") = none →
      (gk_should_respond parseIso st message user_id false context now outcome).verdict =
        fallbackVerdict parseIso now message (context.getD ⟨none, none, none⟩) false) := by
  have hopen : (st.ollama_available = false ∧
      max_connection_attempts ≤ st.connection_attempts) := ⟨hav, hcnt⟩
  have hcall : call_ollama st outcome = ⟨none, st, false⟩ := by
    unfold call_ollama
    rw [if_pos hopen]
  refine ⟨by rw [hcall], by rw [hcall], by rw [hcall], ?_, ?_⟩
  · intro bot_mentioned
    unfold gk_should_respond
    cases bot_mentioned
    · simp only [Bool.false_eq_true, if_false]
      cases hlk : lookupTime st.last_response_time
          ((context.getD ⟨none, none, none⟩).channelId.getD "unknown") with
      | none =>
        unfold gkEvaluate
        rw [if_pos hopen]
        exact ⟨rfl, rfl⟩
      | some t =>
        dsimp only
        by_cases hrl : now - t < 5
        · rw [if_pos hrl]
          exact ⟨rfl, rfl⟩
        · rw [if_neg hrl]
          unfold gkEvaluate
          rw [if_pos hopen]
          exact ⟨rfl, rfl⟩
    · exact ⟨rfl, rfl⟩
  · intro hlk
    unfold gk_should_respond
    simp only [Bool.false_eq_true, if_false]
    rw [hlk]
    unfold gkEvaluate
    rw [if_pos hopen]

/-- Witness for C3 (amended) at the concrete open-circuit state. -/
theorem C3_circuit_requires_flag_witness :
    (call_ollama ⟨false, 3, []⟩ .timeout).transport = false ∧
    (call_ollama ⟨false, 3, []⟩ .timeout).response = none ∧
    (call_ollama ⟨false, 3, []⟩ .timeout).st = ⟨false, 3, []⟩ ∧
    (∀ bot_mentioned,
      (gk_should_respond (fun _ => .error .valueError) ⟨false, 3, []⟩ "hi".toList "u"
        bot_mentioned none 0 .timeout).transport = false ∧
      (gk_should_respond (fun _ => .error .valueError) ⟨false, 3, []⟩ "hi".toList "u"
        bot_mentioned none 0 .timeout).st = ⟨false, 3, []⟩) ∧
    (lookupTime (⟨false, 3, []⟩ : GkState).last_response_time
        (((none : Option UserCtx).getD ⟨none, none, none⟩).channelId.getD "unknown") = none →
      (gk_should_respond (fun _ => .error .valueError) ⟨false, 3, []⟩ "hi".toList "u" false
        none 0 .timeout).verdict =
        fallbackVerdict (fun _ => .error .valueError) 0 "hi".toList
          (((none : Option UserCtx)).getD ⟨none, none, none⟩) false) :=
  C3_circuit_requires_flag (fun _ => .error .valueError) ⟨false, 3, []⟩ "hi".toList "u"
    none 0 .timeout rfl (by decide)

/-- Helper: the reply/send events produced from the split message parts
never contain a gatekeeper event. -/
theorem gk_not_in_parts (v : MessageVerdict) (l : List Str) (b : Bool) (e : String) :
    BotEv.gatekeeperEvaluated v ∉
      (match l with
       | [] => if b = true then [BotEv.replied e] else []
       | p :: rest =>
         BotEv.replied (List.asString p) ::
           List.map (fun q => BotEv.sent (List.asString q)) rest) := by
  cases l
  · cases b <;> simp
  · simp

/-- C1 (counterexample): for the plain message `hello` (not from the bot,
no prefix, no mention) the Response Composer is invoked, yet the trace
contains no gatekeeper verdict at all — in particular none with
`should_respond = true`.  `on_message` forwards every surviving message to
the engine without computing any verdict. -/
theorem C1_composer_without_verdict :
    (BotEv.composerInvoked "hello" ∈
      on_message (fun _ => some "ok") ⟨"hello", false, false, false⟩) ∧
    ∀ v : MessageVerdict,
      BotEv.gatekeeperEvaluated v ∉
        on_message (fun _ => some "ok") ⟨"hello", false, false, false⟩ := by
  have htrace : on_message (fun _ => some "ok") ⟨"hello", false, false, false⟩ =
      [BotEv.processCommands, BotEv.composerInvoked "hello", BotEv.replied "ok"] := by
    decide
  rw [htrace]
  refine ⟨by simp, ?_⟩
  intro v
  simp

/-- C1 (amended): `on_message` computes no gatekeeper verdict on any path,
and the Response Composer is invoked exactly for the messages that are not
from the bot itself, do not start with the command prefix, and are not from
another bot — independent of any verdict. -/
theorem C1_no_gatekeeper_in_pipeline (genResp : String → Option String) (m : InMsg) :
    (∀ v : MessageVerdict, BotEv.gatekeeperEvaluated v ∉ on_message genResp m) ∧
    ((∃ c, BotEv.composerInvoked c ∈ on_message genResp m) ↔
      (m.authorIsSelf = false ∧ startsWithBang m.content = false ∧
        m.authorIsBot = false)) := by
  rcases m with ⟨content, aself, abot, ment⟩
  unfold on_message
  cases aself
  · simp only [Bool.false_eq_true, if_false]
    by_cases hp : startsWithBang content
    · simp [hp]
    · simp only [hp, Bool.false_eq_true, if_false]
      cases abot
      · simp only [Bool.false_eq_true, if_false]
        cases hg : genResp content
        · cases hm : ment <;> simp
        · rename_i response
          refine ⟨?_, by simp⟩
          intro v
          simp only [List.mem_cons, not_or]
          refine ⟨by simp, by simp, ?_⟩
          exact gk_not_in_parts v _ _ _
      · simp
  · simp

/-- Helper: every classifier verdict's confidence is one of the code's five
literal tiers. -/
theorem fallback_conf_cases (parseIso : PVal → Except PyErr Int) (now : Int)
    (message : Str) (context : UserCtx) (bot_mentioned : Bool) (v : MessageVerdict)
    (h : fallback_evaluation parseIso now message context bot_mentioned = Except.ok v) :
    v.confidence = 0.95 ∨ v.confidence = 0.9 ∨ v.confidence = 0.8 ∨
      v.confidence = 0.7 ∨ v.confidence = 0.6 := by
  unfold fallback_evaluation recentInteractionE at h
  split at h
  · cases h
    exact Or.inl rfl
  · rcases hctx : context.lastInteractionTime with _ | pv
    · rw [hctx] at h
      dsimp only [Except.bind] at h
      split at h
      · cases h
        dsimp only
        split_ifs <;> norm_num
      · cases h
        norm_num
    · rw [hctx] at h
      dsimp only at h
      rcases hp : parseIso pv with e | t
      · rw [hp] at h
        dsimp only [Except.bind] at h
        split at h
        · cases h
          dsimp only
          split_ifs <;> norm_num
        · cases h
          norm_num
      · rw [hp] at h
        dsimp only [Except.bind] at h
        split at h
        · cases h
          dsimp only
          split_ifs <;> norm_num
        · cases h
          norm_num

/-- Helper: every classifier verdict has confidence within `[0, 1]`
(its tiers are 0.95, 0.9, 0.8, 0.7, 0.6). -/
theorem fallback_confidence_bounds (parseIso : PVal → Except PyErr Int) (now : Int)
    (message : Str) (context : UserCtx) (bot_mentioned : Bool) :
    0 ≤ (fallbackVerdict parseIso now message context bot_mentioned).confidence ∧
    (fallbackVerdict parseIso now message context bot_mentioned).confidence ≤ 1 := by
  rcases fallback_conf_cases parseIso now message context bot_mentioned _
      (fallback_evaluation_ok parseIso now message context bot_mentioned) with
    h | h | h | h | h <;> rw [h] <;> norm_num

set_option maxRecDepth 100000 in
/-- C8 (counterexample): a remote reply that fails the strict grammar but
contains the decimal literal `2.5` produces, through the lenient-recovery
parse inside `should_respond`, a Verdict whose confidence is `5/2 > 1`. -/
theorem C8_lenient_confidence_exceeds_one :
    ((gk_should_respond (fun _ => .error .valueError) ⟨true, 0, []⟩ "hi".toList "u" false
        none 0 (.ok "maybe YES 2.5 trading stuff".toList)).verdict.confidence = 5 / 2) ∧
    ¬((gk_should_respond (fun _ => .error .valueError) ⟨true, 0, []⟩ "hi".toList "u" false
        none 0 (.ok "maybe YES 2.5 trading stuff".toList)).verdict.confidence ≤ 1) := by
  have h : (gk_should_respond (fun _ => .error .valueError) ⟨true, 0, []⟩ "hi".toList "u"
      false none 0 (.ok "maybe YES 2.5 trading stuff".toList)).verdict.confidence =
      ((natOfDigits ['2'] : ℚ) + (natOfDigits ['5'] : ℚ) / (10 : ℚ) ^ (1 : ℕ)) := rfl
  have h2 : natOfDigits ['2'] = 2 := by decide
  have h5 : natOfDigits ['5'] = 5 := by decide
  rw [h, h2, h5]
  norm_num

/-- C8 (amended): verdicts produced by the classifier and by the strict
parse of the remote reply have confidence in `[0, 1]` (the strict parse
clamps), and the lenient-recovery parse stays in range when the reply
contains no decimal literal (defaulting to 0.7) — but it returns an
extracted decimal literal unclamped, so its verdicts can exceed 1
(see the counterexample). -/
theorem C8_confidence_range (parseIso : PVal → Except PyErr Int) (now : Int)
    (message : Str) (context : UserCtx) (bot_mentioned : Bool) (response : Str) :
    (0 ≤ (fallbackVerdict parseIso now message context bot_mentioned).confidence ∧
      (fallbackVerdict parseIso now message context bot_mentioned).confidence ≤ 1) ∧
    ((reMatchEnd strict_verdict_re (stripStr response)).isSome = true →
      0 ≤ (parse_ollama_reply response).2.1 ∧ (parse_ollama_reply response).2.1 ≤ 1) ∧
    ((reMatchEnd strict_verdict_re (stripStr response)).isSome = false →
      reSearch decimal_re (stripStr response) = none →
      (parse_ollama_reply response).2.1 = 0.7) := by
  refine ⟨fallback_confidence_bounds parseIso now message context bot_mentioned, ?_, ?_⟩
  · intro hsome
    rcases Option.isSome_iff_exists.mp hsome with ⟨caps, hcaps⟩
    unfold parse_ollama_reply
    dsimp only
    rw [hcaps]
    dsimp only
    cases parseFloatQ ((capGet caps 2).getD []) with
    | none => norm_num
    | some q =>
      dsimp only
      constructor
      · exact le_max_left 0 _
      · exact max_le (by norm_num) (min_le_left 1 q)
  · intro hnone hdec
    unfold parse_ollama_reply
    dsimp only
    rcases hm : reMatchEnd strict_verdict_re (stripStr response) with _ | caps
    · dsimp only
      rw [hdec]
    · rw [hm] at hnone
      simp at hnone

/-- Witness for C8 (amended): a strict-grammar reply and a plain message. -/
theorem C8_confidence_range_witness :
    (0 ≤ (fallbackVerdict (fun _ => .error .valueError) 0 "zzz".toList
        ⟨none, none, none⟩ false).confidence ∧
      (fallbackVerdict (fun _ => .error .valueError) 0 "zzz".toList
        ⟨none, none, none⟩ false).confidence ≤ 1) ∧
    ((reMatchEnd strict_verdict_re (stripStr "YES 0.95 ok".toList)).isSome = true →
      0 ≤ (parse_ollama_reply "YES 0.95 ok".toList).2.1 ∧
        (parse_ollama_reply "YES 0.95 ok".toList).2.1 ≤ 1) ∧
    ((reMatchEnd strict_verdict_re (stripStr "YES 0.95 ok".toList)).isSome = false →
      reSearch decimal_re (stripStr "YES 0.95 ok".toList) = none →
      (parse_ollama_reply "YES 0.95 ok".toList).2.1 = 0.7) :=
  C8_confidence_range (fun _ => .error .valueError) 0 "zzz".toList ⟨none, none, none⟩
    false "YES 0.95 ok".toList

/-- The registry value produced by `load_tools`. -/
def regLoaded (pc mt : TDict → Except String TDict) : ToolReg :=
  [("price_checker", ⟨"price_checker", pc⟩), ("market_trends", ⟨"market_trends", mt⟩)]

/-- Helper: `load_tools` succeeds and registers exactly the two tools. -/
theorem load_tools_eq (pc mt : TDict → Except String TDict) :
    load_tools pc mt = .ok (regLoaded pc mt) := rfl

/-- Helper: in a loaded registry, any `browser_search` invocation is a
not-found error. -/
theorem browser_not_found (pc mt : TDict → Except String TDict) (params : TDict) :
    execute_tool (regLoaded pc mt) "browser_search" params =
      ⟨toolNotFound "browser_search", [], false⟩ :=
  execute_tool_not_found _ _ _ rfl

/-- Helper: over a loaded registry no execution path ever takes a
fallback-success branch. -/
theorem usedFallback_false (pc mt : TDict → Except String TDict)
    (tool_name : String) (params : TDict) :
    (execute_tool (regLoaded pc mt) tool_name params).usedFallback = false := by
  rcases hg : get_tool (regLoaded pc mt) tool_name with _ | tool
  · rw [execute_tool_not_found _ _ _ hg]
  · by_cases h1 : tool_name = "price_checker"
    · subst h1
      unfold execute_tool
      rw [show get_tool (regLoaded pc mt) "price_checker" =
        some ⟨"price_checker", pc⟩ from rfl]
      dsimp only
      rcases hpc : pc params with e | r
      · dsimp only
        rw [dif_pos (Or.inl rfl)]
        rw [browser_not_found]
        simp [hasErrorKey, toolNotFound]
      · dsimp only
        by_cases herr : (hasErrorKey r || decide (r = [])) = true
        · rw [dif_pos ⟨Or.inl rfl, herr⟩]
          rw [browser_not_found]
          simp [hasErrorKey, toolNotFound]
        · rw [dif_neg (fun hc => herr hc.2)]
    · by_cases h2 : tool_name = "market_trends"
      · subst h2
        unfold execute_tool
        rw [show get_tool (regLoaded pc mt) "market_trends" =
          some ⟨"market_trends", mt⟩ from rfl]
        dsimp only
        rcases hmt : mt params with e | r
        · dsimp only
          rw [dif_pos (Or.inr rfl)]
          rw [browser_not_found]
          simp [hasErrorKey, toolNotFound]
        · dsimp only
          by_cases herr : (hasErrorKey r || decide (r = [])) = true
          · rw [dif_pos ⟨Or.inr rfl, herr⟩]
            rw [browser_not_found]
            simp [hasErrorKey, toolNotFound]
          · rw [dif_neg (fun hc => herr hc.2)]
      · exfalso
        have hb1 : ("price_checker" == tool_name) = false :=
          beq_eq_false_iff_ne.mpr (fun hc => h1 hc.symm)
        have hb2 : ("market_trends" == tool_name) = false :=
          beq_eq_false_iff_ne.mpr (fun hc => h2 hc.symm)
        have hnone : get_tool (regLoaded pc mt) tool_name = none := by
          simp only [get_tool, regLoaded, List.find?, hb1, hb2]
          rfl
        rw [hnone] at hg
        cases hg

/-- C10: after `load_tools`, the registry holds exactly `price_checker` and
`market_trends`; `browser_search` was never registered, so every fallback
invocation of it resolves to the `tool not found` error and no execution can
ever return fallback-supplied data. -/
theorem C10_fallback_never_registered (pc mt : TDict → Except String TDict) (reg : ToolReg)
    (hload : load_tools pc mt = .ok reg) :
    reg.map (fun kv => kv.1) = ["price_checker", "market_trends"] ∧
    get_tool reg "browser_search" = none ∧
    (∀ params, execute_tool reg "browser_search" params =
      ⟨toolNotFound "browser_search", [], false⟩) ∧
    ∀ tool_name params, (execute_tool reg tool_name params).usedFallback = false := by
  have hreg : reg = regLoaded pc mt := by
    have h2 := load_tools_eq pc mt
    rw [hload] at h2
    exact Except.ok.inj h2
  subst hreg
  exact ⟨rfl, rfl, fun params => browser_not_found pc mt params,
    fun tool_name params => usedFallback_false pc mt tool_name params⟩

/-- Witness for C10 with concrete tool behaviours. -/
theorem C10_fallback_never_registered_witness :
    ((regLoaded (fun _ => .ok [("error", PVal.s "api down")]) (fun _ => .ok [])).map
      (fun kv => kv.1) = ["price_checker", "market_trends"]) ∧
    get_tool (regLoaded (fun _ => .ok [("error", PVal.s "api down")]) (fun _ => .ok []))
      "browser_search" = none ∧
    (∀ params, execute_tool
      (regLoaded (fun _ => .ok [("error", PVal.s "api down")]) (fun _ => .ok []))
      "browser_search" params = ⟨toolNotFound "browser_search", [], false⟩) ∧
    ∀ tool_name params, (execute_tool
      (regLoaded (fun _ => .ok [("error", PVal.s "api down")]) (fun _ => .ok []))
      tool_name params).usedFallback = false :=
  C10_fallback_never_registered (fun _ => .ok [("error", PVal.s "api down")])
    (fun _ => .ok []) _ rfl

/-- One-step equation for `execute_tool` when the tool is found. -/
theorem execute_tool_found (reg : ToolReg) (tool_name : String) (params : TDict)
    (tool : Tool) (h : get_tool reg tool_name = some tool) :
    execute_tool reg tool_name params =
      (match tool.exec params with
      | .ok result =>
        if _h : (tool_name = "price_checker" ∨ tool_name = "market_trends") ∧
            (hasErrorKey result || decide (result = [])) = true then
          if !hasErrorKey (execute_tool reg "browser_search"
              (fallbackQueryParams tool_name params)).result then
            ⟨dictSet (execute_tool reg "browser_search"
                (fallbackQueryParams tool_name params)).result "note"
                (.s (fallbackNoteText tool_name)),
              tool_name :: (execute_tool reg "browser_search"
                (fallbackQueryParams tool_name params)).invoked, true⟩
          else ⟨result, tool_name :: (execute_tool reg "browser_search"
              (fallbackQueryParams tool_name params)).invoked,
            (execute_tool reg "browser_search"
              (fallbackQueryParams tool_name params)).usedFallback⟩
        else ⟨result, [tool_name], false⟩
      | .error e =>
        if _h : tool_name = "price_checker" ∨ tool_name = "market_trends" then
          if !hasErrorKey (execute_tool reg "browser_search"
              (fallbackQueryParams tool_name params)).result then
            ⟨dictSet (execute_tool reg "browser_search"
                (fallbackQueryParams tool_name params)).result "note"
                (.s (fallbackNoteExnText tool_name)),
              tool_name :: (execute_tool reg "browser_search"
                (fallbackQueryParams tool_name params)).invoked, true⟩
          else ⟨[("error", .s ("Error executing tool: " ++ e))],
            tool_name :: (execute_tool reg "browser_search"
              (fallbackQueryParams tool_name params)).invoked,
            (execute_tool reg "browser_search"
              (fallbackQueryParams tool_name params)).usedFallback⟩
        else ⟨[("error", .s ("Error executing tool: " ++ e))], [tool_name], false⟩) := by
  conv_lhs => rw [execute_tool]
  rw [h]

/-- C4: when a market-data lookup (`price_checker` or `market_trends`)
fails — via an error field, an empty result, or a raised exception — and the
`browser_search` fallback invocation also fails, `_execute_tool` returns the
primary's original error (for an exception, the error text built from the
primary's own exception), not the fallback's; when the fallback succeeds,
the returned result is the fallback's data tagged with the provenance
note. -/
theorem C4_fallback_preserves_original_error (reg : ToolReg) (tool_name : String)
    (params : TDict) (tool : Tool)
    (hname : tool_name = "price_checker" ∨ tool_name = "market_trends")
    (hfound : get_tool reg tool_name = some tool) :
    (∀ r, tool.exec params = .ok r → (hasErrorKey r || decide (r = [])) = true →
      ((hasErrorKey (execute_tool reg "browser_search"
          (fallbackQueryParams tool_name params)).result = true →
        (execute_tool reg tool_name params).result = r) ∧
       (hasErrorKey (execute_tool reg "browser_search"
          (fallbackQueryParams tool_name params)).result = false →
        (execute_tool reg tool_name params).result =
          dictSet (execute_tool reg "browser_search"
            (fallbackQueryParams tool_name params)).result "note"
            (.s (fallbackNoteText tool_name))))) ∧
    (∀ e, tool.exec params = .error e →
      ((hasErrorKey (execute_tool reg "browser_search"
          (fallbackQueryParams tool_name params)).result = true →
        (execute_tool reg tool_name params).result =
          [("error", .s ("Error executing tool: " ++ e))]) ∧
       (hasErrorKey (execute_tool reg "browser_search"
          (fallbackQueryParams tool_name params)).result = false →
        (execute_tool reg tool_name params).result =
          dictSet (execute_tool reg "browser_search"
            (fallbackQueryParams tool_name params)).result "note"
            (.s (fallbackNoteExnText tool_name))))) := by
  constructor
  · intro r hr herr
    rw [execute_tool_found reg tool_name params tool hfound, hr]
    dsimp only
    rw [dif_pos ⟨hname, herr⟩]
    constructor
    · intro hb
      simp [hb]
    · intro hb
      simp [hb]
  · intro e he
    rw [execute_tool_found reg tool_name params tool hfound, he]
    dsimp only
    rw [dif_pos hname]
    constructor
    · intro hb
      simp [hb]
    · intro hb
      simp [hb]

/-- Witness for C4: a failing price checker whose browser fallback is a
not-found error — the original error dict comes back verbatim. -/
theorem C4_fallback_preserves_original_error_witness :
    (execute_tool regDemo "price_checker" [("symbol", PVal.s "BTC")]).result =
      [("error", PVal.s "api down")] :=
  ((C4_fallback_preserves_original_error regDemo "price_checker"
      [("symbol", PVal.s "BTC")]
      ⟨"price_checker", fun _ => .ok [("error", PVal.s "api down")]⟩ (Or.inl rfl) rfl).1
    [("error", PVal.s "api down")] rfl (by decide)).1
    (by rw [execute_tool_not_found regDemo "browser_search" _ rfl]; rfl)

/-! ### Lemmas about the message splitter (for C9) -/

theorem splitParas_ne_nil (s : Str) : splitParas s ≠ [] := by
  induction s using splitParas.induct with
  | case1 => simp [splitParas]
  | case2 c => simp [splitParas]
  | case3 c c2 rest h ih =>
    rw [splitParas, if_pos h]
    simp
  | case4 c c2 rest h hsp ih =>
    exact absurd hsp (ih)
  | case5 c c2 rest h g gs hsp ih =>
    rw [splitParas, if_neg h, hsp]
    simp

theorem joinTail_append (xs ys : List Str) :
    joinTail (xs ++ ys) = joinTail xs ++ joinTail ys := by
  induction xs with
  | nil => simp [joinTail]
  | cons g gs ih => simp [joinTail, ih]

theorem joinTail_eq_of_ne_nil (gs : List Str) (h : gs ≠ []) :
    joinTail gs = nlCh :: nlCh :: joinParas gs := by
  cases gs with
  | nil => contradiction
  | cons g gs' => simp [joinTail, joinParas]

theorem joinParas_append (X Y : List Str) (hX : X ≠ []) :
    joinParas (X ++ Y) = joinParas X ++ joinTail Y := by
  cases X with
  | nil => contradiction
  | cons g gs => simp [joinParas, joinTail_append]

/-- Splitting on the paragraph separator and re-joining is the identity. -/
theorem joinParas_splitParas (s : Str) : joinParas (splitParas s) = s := by
  induction s using splitParas.induct with
  | case1 => simp [splitParas, joinParas, joinTail]
  | case2 c => simp [splitParas, joinParas, joinTail]
  | case3 c c2 rest h ih =>
    rw [splitParas, if_pos h]
    rw [joinParas, joinTail_eq_of_ne_nil _ (splitParas_ne_nil rest), ih]
    simp [h.1, h.2]
  | case4 c c2 rest h hsp ih =>
    exact absurd hsp (splitParas_ne_nil _)
  | case5 c c2 rest h g gs hsp ih =>
    rw [splitParas, if_neg h, hsp]
    rw [hsp] at ih
    rw [joinParas] at ih ⊢
    simp only [List.cons_append]
    rw [ih]

/-- A text without the separator character forms a single paragraph. -/
theorem splitParas_no_nl (s : Str) (h : ∀ c ∈ s, c ≠ nlCh) : splitParas s = [s] := by
  induction s using splitParas.induct with
  | case1 => rw [splitParas]
  | case2 c => rw [splitParas]
  | case3 c c2 rest hc ih =>
    exact absurd hc.1 (h c (by simp))
  | case4 c c2 rest hc hsp ih =>
    exact absurd hsp (splitParas_ne_nil _)
  | case5 c c2 rest hc g gs hsp ih =>
    rw [splitParas, if_neg hc, hsp]
    have := ih (fun x hx => h x (by simp at hx ⊢; tauto))
    rw [hsp] at this
    cases this
    rfl

/-- A text without whitespace forms a single sentence. -/
theorem splitSentAux_no_space (s : Str) : ∀ acc : Str, (∀ c ∈ s, isSpaceCh c = false) →
    splitSentAux acc s = [acc.reverse ++ s] := by
  induction s with
  | nil =>
    intro acc h
    simp [splitSentAux]
  | cons c rest ih =>
    intro acc h
    rw [splitSentAux]
    rw [dif_neg (by simp [h c (by simp)])]
    rw [ih (c :: acc) (fun x hx => h x (by simp [hx]))]
    simp

theorem splitSentences_no_space (s : Str) (h : ∀ c ∈ s, isSpaceCh c = false) :
    splitSentences s = [s] := by
  rw [splitSentences, splitSentAux_no_space s [] h]
  simp

/-- The final reassembly step of `_split_message`. -/
def recon (st : List Str × Str) : List Str :=
  if st.2 ≠ [] then st.1 ++ [st.2] else st.1

theorem joinParas_concat (X : List Str) (a : Str) :
    joinParas (X ++ [a]) =
      joinParas X ++ (if X = [] then a else nlCh :: nlCh :: a) := by
  cases X with
  | nil => simp [joinParas, joinTail]
  | cons g gs =>
    simp [joinParas, joinTail_append, joinTail]

/-- One step of the paragraph loop: sizes stay bounded, the running part is
nonempty, and the reassembled text grows by exactly the new paragraph. -/
theorem stepPara_spec (limit : Nat) (parts : List Str) (current p : Str)
    (hp : p ≠ []) (hpl : p.length ≤ limit)
    (hparts : ∀ q ∈ parts, q.length ≤ limit) (hcur : current.length ≤ limit) :
    (∀ q ∈ (stepPara limit (parts, current) p).1, q.length ≤ limit) ∧
    (stepPara limit (parts, current) p).2.length ≤ limit ∧
    (stepPara limit (parts, current) p).2 ≠ [] ∧
    joinParas (recon (stepPara limit (parts, current) p)) =
      joinParas (recon (parts, current) ++ [p]) := by
  unfold stepPara
  dsimp only
  by_cases hc : limit < current.length + p.length + 2
  · rw [if_pos hc, if_neg (by omega)]
    by_cases hc0 : current = []
    · simp only [hc0, ne_eq, not_true_eq_false, if_false]
      refine ⟨hparts, hpl, hp, ?_⟩
      simp [recon, hp, hc0]
    · simp only [ne_eq, hc0, not_false_eq_true, if_true]
      refine ⟨?_, hpl, hp, ?_⟩
      · intro q hq
        rcases List.mem_append.mp hq with h1 | h1
        · exact hparts q h1
        · simp at h1
          rw [h1]
          exact hcur
      · simp [recon, hp, hc0, List.append_assoc]
  · rw [if_neg hc]
    by_cases hc0 : current = []
    · simp only [hc0, ne_eq, not_true_eq_false, if_false]
      refine ⟨hparts, hpl, hp, ?_⟩
      simp [recon, hp, hc0]
    · simp only [ne_eq, hc0, not_false_eq_true, if_true]
      refine ⟨hparts, ?_, by simp [hc0], ?_⟩
      · simp only [List.length_append, List.length_cons]
        omega
      · have hne : (current ++ nlCh :: nlCh :: p) ≠ [] := by simp [hc0]
        simp only [recon, ne_eq, hne, not_false_eq_true, if_true, hc0, hp]
        rw [joinParas_concat, joinParas_concat]
        rw [if_neg (by simp : ¬(parts ++ [current] = []))]
        by_cases hpn : parts = []
        · simp [hpn, joinParas, joinTail, joinParas_concat, List.append_assoc]
        · rw [if_neg hpn, joinParas_concat, if_neg hpn]
          simp [List.append_assoc]

/-- The paragraph fold keeps all chunks bounded and reassembles to the
original sequence of paragraphs. -/
theorem foldPara_spec (limit : Nat) (ps : List Str)
    (hps : ∀ p ∈ ps, p ≠ [] ∧ p.length ≤ limit) :
    ∀ parts current, (∀ q ∈ parts, q.length ≤ limit) → current.length ≤ limit →
    (∀ q ∈ (ps.foldl (stepPara limit) (parts, current)).1, q.length ≤ limit) ∧
    (ps.foldl (stepPara limit) (parts, current)).2.length ≤ limit ∧
    joinParas (recon (ps.foldl (stepPara limit) (parts, current))) =
      joinParas (recon (parts, current) ++ ps) := by
  induction ps with
  | nil =>
    intro parts current h1 h2
    exact ⟨h1, h2, by simp⟩
  | cons p ps ih =>
    intro parts current h1 h2
    have hp := hps p (by simp)
    have hstep := stepPara_spec limit parts current p hp.1 hp.2 h1 h2
    have htail := ih (fun q hq => hps q (by simp [hq]))
      (stepPara limit (parts, current) p).1 (stepPara limit (parts, current) p).2
      hstep.1 hstep.2.1
    simp only [List.foldl_cons]
    rw [show ((stepPara limit (parts, current) p).1,
      (stepPara limit (parts, current) p).2) = stepPara limit (parts, current) p from rfl]
      at htail
    refine ⟨htail.1, htail.2.1, ?_⟩
    rw [htail.2.2]
    have hXne : recon (stepPara limit (parts, current) p) ≠ [] := by
      simp only [recon, ne_eq, hstep.2.2.1, not_false_eq_true, if_true]
      simp
    have hYne : recon (parts, current) ++ [p] ≠ [] := by simp
    rw [joinParas_append _ _ hXne, hstep.2.2.2, ← joinParas_append _ _ hYne]
    simp [List.append_assoc]

theorem splitParas_append_sep (g rest : Str) (hg : ∀ c ∈ g, c ≠ nlCh) :
    splitParas (g ++ nlCh :: nlCh :: rest) = g :: splitParas rest := by
  induction g with
  | nil =>
    simp only [List.nil_append]
    rw [splitParas, if_pos ⟨rfl, rfl⟩]
  | cons c g' ih =>
    have hc : c ≠ nlCh := hg c (by simp)
    cases g' with
    | nil =>
      simp only [List.cons_append, List.nil_append]
      rw [splitParas, if_neg (by tauto)]
      rw [show splitParas (nlCh :: nlCh :: rest) = [] :: splitParas rest from by
        rw [splitParas, if_pos ⟨rfl, rfl⟩]]
    | cons d g'' =>
      simp only [List.cons_append] at ih ⊢
      rw [splitParas, if_neg (by tauto)]
      rw [ih (fun x hx => hg x (by simp [hx]))]

theorem splitParas_joinParas (gs : List Str) (hne : gs ≠ [])
    (hnl : ∀ g ∈ gs, ∀ c ∈ g, c ≠ nlCh) :
    splitParas (joinParas gs) = gs := by
  induction gs with
  | nil => exact absurd rfl hne
  | cons g gs' ih =>
    cases gs' with
    | nil =>
      simp only [joinParas, joinTail, List.append_nil]
      exact splitParas_no_nl g (hnl g (by simp))
    | cons g2 gs'' =>
      rw [joinParas, joinTail_eq_of_ne_nil _ (by simp)]
      rw [splitParas_append_sep g _ (hnl g (by simp))]
      rw [ih (by simp) (fun x hx => hnl x (by simp [hx]))]

/-- A 5000-character reply with no paragraph or sentence breaks. -/
def msg5000 : Str := List.replicate 5000 'a'

theorem stepPara_msg5000 :
    stepPara discord_message_limit ([], []) msg5000 = ([[]], msg5000) := by
  unfold stepPara
  dsimp only
  rw [if_pos (by simp only [msg5000, discord_message_limit, List.length_nil,
    List.length_replicate]; omega)]
  simp only [ne_eq, not_true_eq_false, if_false]
  rw [if_pos (by simp only [msg5000, discord_message_limit, List.length_replicate]; omega)]
  rw [splitSentences_no_space msg5000 (by
    intro c hc
    simp only [msg5000, List.mem_replicate] at hc
    rw [hc.2]
    rfl)]
  simp only [List.foldl_cons, List.foldl_nil]
  unfold stepSent
  dsimp only
  rw [if_pos (by simp only [msg5000, discord_message_limit, List.length_nil,
    List.length_replicate]; omega)]
  simp

theorem msg5000_ne_nil : msg5000 ≠ [] := by
  intro h
  have := congrArg List.length h
  simp only [msg5000, List.length_replicate, List.length_nil] at this
  omega

theorem split_msg5000 :
    split_message discord_message_limit msg5000 = [[], msg5000] := by
  unfold split_message
  rw [if_neg (by simp only [msg5000, discord_message_limit, List.length_replicate]; omega)]
  rw [splitParas_no_nl msg5000 (by
    intro c hc
    simp only [msg5000, List.mem_replicate] at hc
    rw [hc.2]
    decide)]
  dsimp only
  rw [List.foldl_cons, List.foldl_nil, stepPara_msg5000]
  dsimp only
  rw [if_pos (by simp only [ne_eq]; exact fun hcon => msg5000_ne_nil hcon)]
  rfl

/-- C9 (counterexample): the 5000-character reply consisting of a single
5000-character sentence is split into an empty first chunk followed by the
entire 5000-character text as one chunk — far beyond the 2000-character
platform limit. -/
theorem C9_oversized_chunk :
    msg5000.length = 5000 ∧
    msg5000 ∈ split_message discord_message_limit msg5000 ∧
    ¬(msg5000.length ≤ discord_message_limit) := by
  refine ⟨by simp only [msg5000, List.length_replicate], ?_, ?_⟩
  · rw [split_msg5000]
    simp
  · simp only [msg5000, discord_message_limit, List.length_replicate]
    omega

/-- C9 (amended): for a 5000-character reply each of whose paragraphs is
nonempty and at most 2000 characters, `_split_message` produces chunks of at
most 2000 characters each, and joining the chunks with the paragraph
separator reproduces the original text (the separator dropped between chunks
is exactly the inserted message boundary). -/
theorem C9_split_bounded (message : Str) (hlen : message.length = 5000)
    (hps : ∀ p ∈ splitParas message, p ≠ [] ∧ p.length ≤ discord_message_limit) :
    (∀ q ∈ split_message discord_message_limit message,
      q.length ≤ discord_message_limit) ∧
    joinParas (split_message discord_message_limit message) = message := by
  have hbig : ¬(message.length ≤ discord_message_limit) := by
    rw [hlen]
    simp only [discord_message_limit]
    omega
  have h := foldPara_spec discord_message_limit (splitParas message) hps [] []
    (by simp) (by simp)
  have hsm : split_message discord_message_limit message =
      recon ((splitParas message).foldl (stepPara discord_message_limit) ([], [])) := by
    unfold split_message recon
    rw [if_neg hbig]
  rw [hsm]
  constructor
  · intro q hq
    unfold recon at hq
    by_cases hc :
        ((splitParas message).foldl (stepPara discord_message_limit) ([], [])).2 = []
    · rw [if_neg (by simp [hc])] at hq
      exact h.1 q hq
    · rw [if_pos (by simp [hc])] at hq
      rcases List.mem_append.mp hq with h1 | h1
      · exact h.1 q h1
      · simp only [List.mem_singleton] at h1
        rw [h1]
        exact h.2.1
  · rw [h.2.2]
    rw [show recon ([], ([] : Str)) = [] from rfl]
    rw [List.nil_append]
    exact joinParas_splitParas message

/-- The paragraphs of the C9 witness reply: four of 1000 characters and one
of 992, totalling 5000 with the separators. -/
def paraA : Str := List.replicate 1000 'a'

def paraB : Str := List.replicate 992 'a'

def msgW : Str := joinParas [paraA, paraA, paraA, paraA, paraB]

theorem paraA_spec : paraA ≠ [] ∧ paraA.length ≤ discord_message_limit := by
  constructor
  · intro h
    have := congrArg List.length h
    simp only [paraA, List.length_replicate, List.length_nil] at this
    omega
  · simp only [paraA, List.length_replicate, discord_message_limit]
    omega

theorem paraB_spec : paraB ≠ [] ∧ paraB.length ≤ discord_message_limit := by
  constructor
  · intro h
    have := congrArg List.length h
    simp only [paraB, List.length_replicate, List.length_nil] at this
    omega
  · simp only [paraB, List.length_replicate, discord_message_limit]
    omega

theorem splitParas_msgW : splitParas msgW = [paraA, paraA, paraA, paraA, paraB] := by
  apply splitParas_joinParas
  · simp
  · intro g hg c hc
    simp only [List.mem_cons, List.not_mem_nil, or_false] at hg
    rcases hg with h | h | h | h | h <;> rw [h] at hc <;>
      first
        | (simp only [paraA, List.mem_replicate] at hc; rw [hc.2]; decide)
        | (simp only [paraB, List.mem_replicate] at hc; rw [hc.2]; decide)

/-- Witness for C9 (amended) at a concrete 5000-character five-paragraph
reply. -/
theorem C9_split_bounded_witness :
    (∀ q ∈ split_message discord_message_limit msgW,
      q.length ≤ discord_message_limit) ∧
    joinParas (split_message discord_message_limit msgW) = msgW :=
  C9_split_bounded msgW
    (by
      have hA : paraA.length = 1000 := List.length_replicate 1000 'a'
      have hB : paraB.length = 992 := List.length_replicate 992 'a'
      rw [show msgW = paraA ++ nlCh :: nlCh :: (paraA ++ nlCh :: nlCh ::
        (paraA ++ nlCh :: nlCh :: (paraA ++ nlCh :: nlCh :: (paraB ++ []))))
        from rfl]
      simp only [List.length_append, List.length_cons, List.length_nil, hA, hB])
    (by
      rw [splitParas_msgW]
      intro p hp
      simp only [List.mem_cons, List.not_mem_nil, or_false] at hp
      rcases hp with h | h | h | h | h <;> rw [h]
      exacts [paraA_spec, paraA_spec, paraA_spec, paraA_spec, paraB_spec])
